import Mathlib

/-!
Verification of the gohangout topology runtime core against its sources:
`src/input/input_box.go` (the `InputBox` type: `NewInputBox`, `beat`, `Beat`,
`shutdown`, `Shutdown`) and `src/unnamed/part_000` (the `main` package:
`buildPluginLink`, `reload`, `_main`, the `gohangoutInputs` supervisor).

Events are abstracted as natural numbers: the pipeline under study never
inspects the contents of an event, it only routes, drops and hands events
to outputs, so any type with decidable equality is an adequate stand-in.

Driver instances (output boxes, filter boxes) are identified by natural-number
ids; a fresh allocation is modelled by an explicit allocation counter.
-/

/-- An event flowing through the pipeline (abstract). -/
abbrev Event := Nat

/-- A processor stage of a worker link, as built by `beat`
(src/input/input_box.go lines 30-47):
* `filter f` — a filter box, i.e. a `topology.Processor` that may mutate or
  drop the event (`Process(event) → event_or_none`);
* `output i` — a single output box with instance id `i` (the
  `len(outputs) == 1` branch of `beat`);
* `outputs ids` — the `output.OutputsProcessor` wrapping the listed output
  instances (the `else` branch of `beat`). -/
inductive Proc where
  | filter (f : Event → Option Event)
  | output (id : Nat)
  | outputs (ids : List Nat)

/-- One delivery record: output instance id paired with the event it was
handed. The call log of a processing step lists deliveries in the order the
outputs' `Process` methods are invoked. -/
abbrev Delivery := Nat × Event

/-- Modelled from the spec (the `output` and `topology` packages are not under
src/): a Processor exposes `Process(event) → event_or_none`; an output stage is
a terminal processor that hands the event to its driver and forwards it; the
`OutputsProcessor` is "a synchronous fan-out that calls each output's `Process`
in configuration order for every event, not in parallel". The first component
is the log of deliveries performed by this step, the second the forwarded
event (`none` = dropped). -/
def Proc.process : Proc → Event → List Delivery × Option Event
  | .filter f, e => ([], f e)
  | .output i, e => ([(i, e)], some e)
  | .outputs ids, e => (ids.map fun i => (i, e), some e)

/-- Modelled from the spec (the `topology` package is not under src/): a
processor link is "a head-referenced singly linked list of Processor nodes;
construction order equals configuration order", so a link is a list of
processors and `topology.AppendProcessorsToLink` appends at the tail. -/
def appendProcessorsToLink (head : List Proc) (p : Proc) : List Proc :=
  head ++ [p]

/-- Modelled from the spec (the `topology` package is not under src/):
`ProcessorNode.Process` runs the event through the chain; a stage returning
`none` drops the event ("return none to drop silently") and the walk stops.
Returns the concatenated delivery log and the final forwarded event. -/
def linkProcess : List Proc → Event → List Delivery × Option Event
  | [], e => ([], some e)
  | p :: rest, e =>
    match p.process e with
    | (log, none) => (log, none)
    | (log, some e2) =>
      let r := linkProcess rest e2
      (log ++ r.1, r.2)

/-- The terminal output processor chosen by `beat`
(src/input/input_box.go lines 34-39): the single output box itself when
exactly one output is configured, otherwise the `OutputsProcessor` over all
of them. -/
def mkOutputProcessor (outs : List Nat) : Proc :=
  if outs.length = 1 then Proc.output outs.head! else Proc.outputs outs

/-- The worker link built by `beat` (src/input/input_box.go lines 30-47):
starting from a nil head, append every filter box in order, then append the
terminal output processor. -/
def buildLink (filterBoxes : List (Event → Option Event)) (outs : List Nat) :
    List Proc :=
  let outputProcessor := mkOutputProcessor outs
  let firstNode := (filterBoxes.map Proc.filter).foldl appendProcessorsToLink []
  appendProcessorsToLink firstNode outputProcessor

/-- Running the configured chain of filter drivers over one event, one after
the other, stopping at the first drop: the spec-side "filtered" function the
ordering law (§8 *Ordering*) compares the worker against. -/
def applyFilters : List (Event → Option Event) → Event → Option Event
  | [], e => some e
  | f :: rest, e =>
    match f e with
    | none => none
    | some e2 => applyFilters rest e2

/-- The sub-sequence of a delivery log handed to output instance `j`,
in order. -/
def handedTo (j : Nat) (log : List Delivery) : List Event :=
  (log.filter fun d => d.1 = j).map fun d => d.2

/-- The result of one worker running `beat`'s read loop
(src/input/input_box.go lines 53-63) to completion:
whether the worker triggered the box's shutdown, and the delivery log it
produced. -/
structure BeatResult where
  shutdownTriggered : Bool
  log : List Delivery
deriving Repr, DecidableEq

/-- The read loop of `beat` (src/input/input_box.go lines 53-63) on a worker
whose box is never externally stopped (`box.stop` stays `false`): the input
stream is the sequence of `ReadOneEvent` results, `none` being the nil event.
On a nil event the worker calls `box.shutdown()` (since `!box.stop`) and
returns; otherwise it feeds the event to the head of its link and loops. If
the stream is exhausted without a nil the worker is still blocked in
`ReadOneEvent`; we record the log produced so far. -/
def beatRun (link : List Proc) : List (Option Event) → BeatResult
  | [] => ⟨false, []⟩
  | none :: _ => ⟨true, []⟩
  | some e :: rest =>
    let r := beatRun link rest
    ⟨r.shutdownTriggered, (linkProcess link e).1 ++ r.log⟩

/-- The mutable state of an `InputBox` that `shutdown` and `Shutdown` touch
(src/input/input_box.go lines 12-19 and 75-95), instrumented with call
counters for the driver `Shutdown` methods:
* `stop` — the `box.stop` field read by the worker loops;
* `onceDone` — whether the `sync.Once` body has already run;
* `inputShutdownCalls` — how often `box.input.Shutdown()` has been called;
* `outputShutdownCalls` — for each worker and each of its output instances,
  how often that instance's `Shutdown()` has been called (the shape mirrors
  `box.outputsInAllWorker`);
* `chanSends` — how many values have been sent on `box.shutdownChan`. -/
structure BoxState where
  stop : Bool
  onceDone : Bool
  inputShutdownCalls : Nat
  outputShutdownCalls : List (List Nat)
  chanSends : Nat
deriving Repr, DecidableEq

/-- A freshly constructed box (`NewInputBox`, src/input/input_box.go
lines 21-28) whose `Beat` allocated `shape.length` workers, worker `i`
holding `shape.get i` output instances: no driver has been shut down yet. -/
def initBox (shape : List Nat) : BoxState :=
  ⟨false, false, 0, shape.map fun k => List.replicate k 0, 0⟩

/-- The body of `box.shutdown()` (src/input/input_box.go lines 75-90): the
`sync.Once` guard runs the driver shutdowns only on the first call — it calls
`box.input.Shutdown()`, then `o.Output.Shutdown()` for every output instance
`o` of every worker — and every call then sends on `box.shutdownChan`.
(`sync.Once` serializes concurrent callers, so the sequential composition of
calls models any number of calling threads.) -/
def shutdownGo (s : BoxState) : BoxState :=
  let s1 :=
    if s.onceDone then s
    else
      { s with
        onceDone := true
        inputShutdownCalls := s.inputShutdownCalls + 1
        outputShutdownCalls := s.outputShutdownCalls.map fun l => l.map (· + 1) }
  { s1 with chanSends := s1.chanSends + 1 }

/-- The exported `box.Shutdown()` (src/input/input_box.go lines 92-95):
calls `box.shutdown()` and then sets `box.stop = true`. -/
def shutdownExported (s : BoxState) : BoxState :=
  let s1 := shutdownGo s
  { s1 with stop := true }

/-- A sequence of shutdown invocations applied to a box, in the order the
`sync.Once` serializes them: `true` stands for the exported `Shutdown()`,
`false` for the internal `shutdown()` (as called by a worker on a nil
event). -/
def applyShutdownCalls (calls : List Bool) (s : BoxState) : BoxState :=
  calls.foldl (fun st c => if c then shutdownExported st else shutdownGo st) s

/-- One observable action performed during a box shutdown:
`inputShutdown` = `box.input.Shutdown()`; `waitWorkers` = a step waiting for
all workers to observe the stop (the spec's step (b) — present in the action
alphabet so its absence from the code's trace is expressible);
`outputShutdown w o` = `Shutdown()` on output instance `o` of worker `w`;
`chanSend` = the send on `box.shutdownChan`. -/
inductive SAction where
  | inputShutdown
  | waitWorkers
  | outputShutdown (worker : Nat) (outId : Nat)
  | chanSend
deriving Repr, DecidableEq

/-- The sequence of actions the first call to `box.shutdown()`
(src/input/input_box.go lines 75-90) performs, in program order:
`box.input.Shutdown()`; then the nested loop
`for i, outputs := range box.outputsInAllWorker { for _, o := range outputs
{ o.Output.Shutdown() } }`; then the send on `box.shutdownChan`.
`outputsInAllWorker` lists, per worker, the ids of its output instances.
The code contains no step between the input shutdown and the output loop. -/
def shutdownTrace (outputsInAllWorker : List (List Nat)) : List SAction :=
  [SAction.inputShutdown] ++
    (outputsInAllWorker.enum.flatMap fun wi =>
      wi.2.map fun o => SAction.outputShutdown wi.1 o) ++
    [SAction.chanSend]

/-- Modelled from the spec (the `output` package is not under src/):
`output.BuildOutputs(box.config)` constructs one fresh output driver instance
per configured output — "each worker gets its own materialized link with its
own driver instances". Freshness is modelled by drawing consecutive ids from
an allocation counter: the call returns the new instances and the advanced
counter. -/
def buildOutputsAlloc (numOutputs ctr : Nat) : List Nat × Nat :=
  (List.range' ctr numOutputs, ctr + numOutputs)

/-- Modelled from the spec (the `filter` package is not under src/):
`filter.BuildFilterBoxes(box.config, outputProcessor)` constructs one fresh
filter box per configured filter, likewise drawing fresh ids from the
allocation counter. -/
def buildFilterBoxesAlloc (numFilters ctr : Nat) : List Nat × Nat :=
  (List.range' ctr numFilters, ctr + numFilters)

/-- The driver instances materialized for one worker: the ids of its output
driver instances and of its filter boxes. -/
structure WorkerLink where
  outputIds : List Nat
  filterIds : List Nat
deriving Repr, DecidableEq

/-- All driver-instance ids a worker link owns. -/
def WorkerLink.allIds (l : WorkerLink) : List Nat :=
  l.outputIds ++ l.filterIds

/-- The construction part of `beat(workerIdx)` (src/input/input_box.go
lines 30-47): call `output.BuildOutputs`, then `filter.BuildFilterBoxes`,
each allocating fresh instances. -/
def beatWorkerAlloc (numFilters numOutputs ctr : Nat) : WorkerLink × Nat :=
  let outs := buildOutputsAlloc numOutputs ctr
  let fs := buildFilterBoxesAlloc numFilters outs.2
  (⟨outs.1, fs.1⟩, fs.2)

/-- The links materialized by the `worker` goroutines spawned in `Beat`
(src/input/input_box.go lines 66-70): one `beat(i)` per `i < n`, each
building its own instances (the allocation counter threads through). -/
def beatAllAlloc (numFilters numOutputs : Nat) :
    Nat → Nat → List WorkerLink × Nat
  | 0, ctr => ([], ctr)
  | n + 1, ctr =>
    let w := beatWorkerAlloc numFilters numOutputs ctr
    let rest := beatAllAlloc numFilters numOutputs n w.2
    (w.1 :: rest.1, rest.2)

/-- The worker links materialized by `Beat(worker)` (src/input/input_box.go
lines 66-73) for a configuration with `numFilters` filters and `numOutputs`
outputs. -/
def beatLinks (numFilters numOutputs n : Nat) : List WorkerLink :=
  (beatAllAlloc numFilters numOutputs n 0).1

/-- An input box as the supervisor sees it: its identity and whether it is
running (`Shutdown` has not been called on it). -/
structure RBox where
  id : Nat
  running : Bool
deriving Repr, DecidableEq

/-- `box.Shutdown()` from the supervisor's perspective (`gohangoutInputs.stop`,
src/unnamed/part_000 lines 73-78): the box stops running. -/
def stopBox (b : RBox) : RBox :=
  { b with running := false }

/-- `inputs.stop()` (src/unnamed/part_000 lines 73-78): call `Shutdown` on
every box. -/
def stopInputs (inputs : List RBox) : List RBox :=
  inputs.map stopBox

/-- The boxes of a list that are currently running. -/
def runningBoxes (inputs : List RBox) : List RBox :=
  inputs.filter fun b => b.running

/-- `buildPluginLink(config)` (src/unnamed/part_000 lines 80-111): walk the
`inputs` entries of the configuration in order; for each, `input.GetInput`
looks the driver type up in the registry — a nil result aborts with the error
"invalid input plugin" (`NewInputBox` of src/input/input_box.go never returns
nil, so the `box == nil` branch is dead); otherwise a new box is appended.
The registry (`input.GetInput`) lives outside src/ and is passed as a
function from driver-type to an optional driver id. -/
def buildPluginLink (registry : String → Option Nat) :
    List String → Except String (List Nat)
  | [] => Except.ok []
  | t :: rest =>
    match registry t with
    | none => Except.error "invalid input plugin"
    | some p =>
      match buildPluginLink registry rest with
      | Except.error e => Except.error e
      | Except.ok bs => Except.ok (p :: bs)

/-- `reload()` (src/unnamed/part_000 lines 114-131): parse the configuration
(`config.ParseConfig` lives outside src/, so its result is a parameter); on a
parse error log and return, leaving `inputs` untouched. Otherwise FIRST call
`inputs.stop()` on the old boxes, THEN `buildPluginLink`; on a build error log
and return — the old, now stopped, boxes remain the current set. On success
the new boxes replace them and `go inputs.start()` starts them running. -/
def reloadGo (parsed : Except String (List String))
    (registry : String → Option Nat) (inputs : List RBox) : List RBox :=
  match parsed with
  | Except.error _ => inputs
  | Except.ok cfg =>
    let stopped := stopInputs inputs
    match buildPluginLink registry cfg with
    | Except.error _ => stopped
    | Except.ok ids => ids.map fun i => ⟨i, true⟩

/-- What `_main` leaves behind: the exit status of the process and the boxes
that were started. -/
structure MainResult where
  exitCode : Nat
  started : List RBox
deriving Repr, DecidableEq

/-- `_main()` (src/unnamed/part_000 lines 133-159): on a parse error
`klog.Fatalf` logs and terminates the process with a non-zero status (255)
before any box exists; likewise on a `buildPluginLink` error. Otherwise the
boxes are started (`go inputs.start()`), `_main` blocks on the cancellation
token, stops the boxes on cancellation and returns — `main` then falls off
its end, exiting with status 0. -/
def mainGo (parsed : Except String (List String))
    (registry : String → Option Nat) : MainResult :=
  match parsed with
  | Except.error _ => ⟨255, []⟩
  | Except.ok cfg =>
    match buildPluginLink registry cfg with
    | Except.error _ => ⟨255, []⟩
    | Except.ok ids => ⟨0, ids.map fun i => ⟨i, true⟩⟩

/-- The state of one box's `Beat`/`shutdown` interaction through
`box.shutdownChan` (src/input/input_box.go lines 18, 66-90):
* `shutdownCalls` — how many invocations of `box.shutdown()` have executed
  their send on the channel;
* `chanBuf` — values currently buffered in `shutdownChan`
  (`make(chan bool, 1)`: capacity one);
* `beatReturned` — whether `Beat` has passed its `<-box.shutdownChan`
  receive and returned. -/
structure ChanState where
  shutdownCalls : Nat
  chanBuf : Nat
  beatReturned : Bool
deriving Repr, DecidableEq

/-- The state right after `Beat` spawned its workers and blocked on
`<-box.shutdownChan`: nothing sent, nothing buffered, `Beat` not returned. -/
def chanInit : ChanState :=
  ⟨0, 0, false⟩

/-- The events that touch `box.shutdownChan`:
* `send` — some caller of `box.shutdown()` (the exported `Shutdown`, or a
  worker that read a nil event) reaches `box.shutdownChan <- true`; it can
  complete only while the capacity-one buffer has room. This is the ONLY
  write to the channel in the program.
* `recv` — `Beat`, blocked at `<-box.shutdownChan`, consumes a buffered
  value and returns (src/input/input_box.go line 72). -/
inductive ChanStep : ChanState → ChanState → Prop
  | send (s : ChanState) (h : s.chanBuf = 0) :
      ChanStep s ⟨s.shutdownCalls + 1, s.chanBuf + 1, s.beatReturned⟩
  | recv (s : ChanState) (h : 0 < s.chanBuf) (h2 : s.beatReturned = false) :
      ChanStep s ⟨s.shutdownCalls, s.chanBuf - 1, true⟩

/-- The states the box can reach from `chanInit` by `ChanStep` steps. -/
inductive ChanReachable : ChanState → Prop
  | init : ChanReachable chanInit
  | step {s t : ChanState} : ChanReachable s → ChanStep s t → ChanReachable t

/-- The worker loop as a function of the `exit-when-nil` CLI option:
`buildPluginLink` (src/unnamed/part_000 line 105) records the option on the
box via `SetShutdownWhenNil(options.exitWhenNil)`, but the `InputBox` of
src/input/input_box.go has no such field and its `beat` loop (lines 53-63)
never consults the option — the worker's behaviour is `beatRun` whatever the
flag says. -/
def beatRunWithExitWhenNil (exitWhenNil : Bool) (link : List Proc)
    (stream : List (Option Event)) : BeatResult :=
  beatRun link stream

/-- A box on which the `sync.Once` body of `shutdown` has run exactly once:
every driver `Shutdown` has been called exactly once. -/
def shutdownDone (s : BoxState) : Prop :=
  s.onceDone = true ∧ s.inputShutdownCalls = 1 ∧
    ∀ l ∈ s.outputShutdownCalls, ∀ c ∈ l, c = 1

/-- Invariant of the `shutdownChan` protocol: the buffer never holds more
values than `shutdown` has sent, and `Beat` can only have returned after at
least one `shutdown` send. -/
def chanInvariant (s : ChanState) : Prop :=
  s.chanBuf ≤ s.shutdownCalls ∧ (s.beatReturned = true → 1 ≤ s.shutdownCalls)

theorem foldl_appendProcessorsToLink (l acc : List Proc) :
    l.foldl appendProcessorsToLink acc = acc ++ l := by
  induction l generalizing acc with
  | nil => simp
  | cons p rest ih =>
    simp [List.foldl_cons, appendProcessorsToLink, ih]

theorem buildLink_eq (fs : List (Event → Option Event)) (outs : List Nat) :
    buildLink fs outs = fs.map Proc.filter ++ [mkOutputProcessor outs] := by
  simp [buildLink, appendProcessorsToLink, foldl_appendProcessorsToLink]

/-- C7: for every configuration, the worker link built by `beat` is the
filter stages in configuration order followed by one terminal output
processor; when at least two outputs are configured the terminal processor is
the `OutputsProcessor`, whose one processing step hands the event to each
output in configuration order (the delivery log lists the outputs in exactly
that order) and forwards the event. -/
theorem c7_link_structure (fs : List (Event → Option Event)) (outs : List Nat) :
    buildLink fs outs = fs.map Proc.filter ++ [mkOutputProcessor outs] ∧
    (2 ≤ outs.length →
      mkOutputProcessor outs = Proc.outputs outs ∧
      ∀ e, (mkOutputProcessor outs).process e =
        (outs.map fun i => (i, e), some e)) := by
  refine ⟨buildLink_eq fs outs, fun h2 => ?_⟩
  have hne : outs.length ≠ 1 := by omega
  have hmk : mkOutputProcessor outs = Proc.outputs outs := by
    simp [mkOutputProcessor, hne]
  exact ⟨hmk, fun e => by simp [hmk, Proc.process]⟩

/-- C7 witness: the theorem at a concrete two-output, one-filter
configuration, processing the concrete event 9. -/
theorem c7_link_structure_witness :
    buildLink [some] [4, 5] = [Proc.filter some] ++ [mkOutputProcessor [4, 5]] ∧
    mkOutputProcessor [4, 5] = Proc.outputs [4, 5] ∧
    (mkOutputProcessor [4, 5]).process 9 = ([(4, 9), (5, 9)], some 9) :=
  ⟨by simpa using (c7_link_structure [some] [4, 5]).1,
   ((c7_link_structure [some] [4, 5]).2 (by decide)).1,
   by simpa using ((c7_link_structure [some] [4, 5]).2 (by decide)).2 9⟩

theorem linkProcess_filters (fs : List (Event → Option Event))
    (rest : List Proc) (e : Event) :
    linkProcess (fs.map Proc.filter ++ rest) e =
      match applyFilters fs e with
      | none => ([], none)
      | some e2 => linkProcess rest e2 := by
  induction fs generalizing e with
  | nil => simp [applyFilters]
  | cons f fs ih =>
    simp only [List.map_cons, List.cons_append, linkProcess, Proc.process,
      applyFilters]
    cases f e with
    | none => rfl
    | some e2 => simp [ih e2]

/-- C9: with exactly one configured output the link built by `beat`
terminates directly in that output's processor (no `OutputsProcessor`
wrapper), and this is observationally equivalent to the fan-out composition
applied to the one-element output list: the terminal step and the whole link
produce the same deliveries and the same forwarded event either way. -/
theorem c9_single_output (fs : List (Event → Option Event)) (i : Nat) :
    buildLink fs [i] = fs.map Proc.filter ++ [Proc.output i] ∧
    (∀ e, (Proc.output i).process e = (Proc.outputs [i]).process e) ∧
    ∀ e, linkProcess (buildLink fs [i]) e =
      linkProcess (fs.map Proc.filter ++ [Proc.outputs [i]]) e := by
  have hmk : mkOutputProcessor [i] = Proc.output i := by
    simp [mkOutputProcessor]
  have hterm : ∀ e, (Proc.output i).process e = (Proc.outputs [i]).process e :=
    fun e => by simp [Proc.process]
  refine ⟨by simp [buildLink_eq, hmk], hterm, fun e => ?_⟩
  rw [buildLink_eq, hmk, linkProcess_filters, linkProcess_filters]
  cases applyFilters fs e with
  | none => rfl
  | some e2 => simp [linkProcess, hterm e2]

theorem handedTo_append (j : Nat) (l1 l2 : List Delivery) :
    handedTo j (l1 ++ l2) = handedTo j l1 ++ handedTo j l2 := by
  simp [handedTo]

theorem handedTo_fanout (j : Nat) (e : Event) (ids : List Nat) :
    handedTo j (ids.map fun i => (i, e)) = List.replicate (ids.count j) e := by
  induction ids with
  | nil => simp [handedTo]
  | cons a ids ih =>
    by_cases haj : a = j
    · subst haj
      simp [handedTo, List.count_cons] at ih ⊢
      simpa [List.replicate_succ] using ih
    · simp [handedTo, List.count_cons, haj, Ne.symm haj] at ih ⊢
      exact ih

theorem linkProcess_single (p : Proc) (e : Event) :
    linkProcess [p] e = p.process e := by
  rcases hp : p.process e with ⟨log, oe⟩
  cases oe <;> simp [linkProcess, hp]

theorem handedTo_terminal (outs : List Nat) (j : Nat) (hj : outs.count j = 1)
    (e : Event) :
    handedTo j ((mkOutputProcessor outs).process e).1 = [e] := by
  match outs with
  | [] => simp at hj
  | [a] =>
    have haj : a = j := by
      by_cases h : a = j
      · exact h
      · simp [List.count_cons, Ne.symm h] at hj
    subst haj
    simp [mkOutputProcessor, Proc.process, handedTo]
  | a :: b :: rest =>
    have hne : (a :: b :: rest).length ≠ 1 := by simp
    have h1 : ((mkOutputProcessor (a :: b :: rest)).process e).1 =
        ((a :: b :: rest).map fun i => (i, e)) := by
      simp only [mkOutputProcessor, if_neg hne, Proc.process]
    rw [h1, handedTo_fanout, hj]
    simp

/-- C5: within one worker, the sequence of events handed to each output
instance equals the filtered subsequence of the events read from the input —
events dropped by the filter chain removed, order preserved (strict FIFO from
`ReadOneEvent` to every output stage). `outs.count j = 1` says `j` is one of
the worker's (pairwise distinct) output instances. -/
theorem c5_worker_fifo (fs : List (Event → Option Event)) (outs : List Nat)
    (j : Nat) (hj : outs.count j = 1) (events : List Event) :
    handedTo j (beatRun (buildLink fs outs) (events.map some)).log =
      events.filterMap (applyFilters fs) := by
  induction events with
  | nil => simp [beatRun, handedTo]
  | cons e es ih =>
    simp only [List.map_cons, beatRun, List.filterMap_cons]
    rw [handedTo_append, ih]
    rw [buildLink_eq, linkProcess_filters]
    cases hfe : applyFilters fs e with
    | none => simp [handedTo]
    | some e2 =>
      have ht : handedTo j (linkProcess [mkOutputProcessor outs] e2).1 = [e2] := by
        rw [linkProcess_single]
        exact handedTo_terminal outs j hj e2
      simp [ht]

/-- C5 witness: a worker with one drop-odd filter and one output (instance 3)
over the read sequence `[1, 2, 4, 5]` hands `[2, 4]` to the output. -/
theorem c5_worker_fifo_witness :
    handedTo 3 (beatRun
      (buildLink [fun e => if e % 2 = 0 then some e else none] [3])
      ([1, 2, 4, 5].map some)).log =
      [1, 2, 4, 5].filterMap
        (applyFilters [fun e => if e % 2 = 0 then some e else none]) :=
  c5_worker_fifo [fun e => if e % 2 = 0 then some e else none] [3] 3
    (by decide) [1, 2, 4, 5]

/-- C2 counterexample: a worker of a box whose `exit-when-nil` option is
`false` reads a nil event first thing — the box's shutdown IS triggered
(src/input/input_box.go line 58 calls `box.shutdown()` whenever the event is
nil and the box is not already stopped, without consulting any option), while
the claim says that without `exit-when-nil` the worker exits and the box's
shutdown is not triggered. -/
theorem c2_counterexample :
    (beatRunWithExitWhenNil false (buildLink [] [0]) [none]).shutdownTriggered
      = true := by
  rfl

/-- C2 amended: when a worker reads a nil event and the box is not already
stopped, the box's graceful shutdown is always triggered and the worker
exits — regardless of the `exit-when-nil` option, which the box's worker loop
never consults (the run of the loop is the same function for either value of
the flag). -/
theorem c2_nil_event (flag : Bool) (link : List Proc) (events : List Event)
    (rest : List (Option Event)) :
    (beatRunWithExitWhenNil flag link
        (events.map some ++ none :: rest)).shutdownTriggered = true ∧
    beatRunWithExitWhenNil flag link (events.map some ++ none :: rest) =
      beatRunWithExitWhenNil (!flag) link (events.map some ++ none :: rest) := by
  refine ⟨?_, rfl⟩
  induction events with
  | nil => rfl
  | cons e es ih => simpa [beatRunWithExitWhenNil, beatRun] using ih

theorem shutdownDone_preserved_go (s : BoxState) (h : shutdownDone s) :
    shutdownDone (shutdownGo s) := by
  obtain ⟨h1, h2, h3⟩ := h
  simp only [shutdownGo, h1, if_true]
  exact ⟨rfl, h2, h3⟩

theorem shutdownDone_preserved (s : BoxState) (c : Bool) (h : shutdownDone s) :
    shutdownDone (if c then shutdownExported s else shutdownGo s) := by
  cases c with
  | false => simpa using shutdownDone_preserved_go s h
  | true =>
    have := shutdownDone_preserved_go s h
    simpa [shutdownExported, shutdownDone] using this

theorem shutdownDone_first (shape : List Nat) (c : Bool) :
    shutdownDone (if c then shutdownExported (initBox shape)
      else shutdownGo (initBox shape)) := by
  have hgo : shutdownDone (shutdownGo (initBox shape)) := by
    refine ⟨rfl, rfl, ?_⟩
    intro l hl c2 hc2
    simp only [shutdownGo, initBox] at hl
    simp only [if_neg (by simp : ¬ (false = true))] at hl
    simp only [List.map_map, List.mem_map] at hl
    obtain ⟨k, _, hk⟩ := hl
    subst hk
    simp only [Function.comp, List.map_replicate, List.mem_replicate] at hc2
    exact hc2.2
  cases c with
  | false => simpa using hgo
  | true => simpa [shutdownExported, shutdownDone] using hgo

theorem shutdownDone_fold (calls : List Bool) (s : BoxState)
    (h : shutdownDone s) : shutdownDone (applyShutdownCalls calls s) := by
  induction calls generalizing s with
  | nil => simpa [applyShutdownCalls] using h
  | cons c cs ih =>
    simp only [applyShutdownCalls, List.foldl_cons] at ih ⊢
    exact ih _ (shutdownDone_preserved s c h)

/-- C3: whatever non-empty sequence of `shutdown`/`Shutdown` invocations a
box receives (the `sync.Once` serializes concurrent callers), the input
driver's `Shutdown` is called exactly once, and each output driver instance's
`Shutdown` in each worker is called exactly once. -/
theorem c3_shutdown_exactly_once (shape : List Nat) (calls : List Bool)
    (h : calls ≠ []) :
    (applyShutdownCalls calls (initBox shape)).inputShutdownCalls = 1 ∧
    ∀ l ∈ (applyShutdownCalls calls (initBox shape)).outputShutdownCalls,
      ∀ c ∈ l, c = 1 := by
  match calls with
  | [] => exact absurd rfl h
  | c :: cs =>
    have hfirst := shutdownDone_first shape c
    have hfold := shutdownDone_fold cs _ hfirst
    have : applyShutdownCalls (c :: cs) (initBox shape) =
        applyShutdownCalls cs
          (if c then shutdownExported (initBox shape)
            else shutdownGo (initBox shape)) := by
      simp [applyShutdownCalls]
    rw [this]
    exact ⟨hfold.2.1, hfold.2.2⟩

/-- C3 witness: a two-worker box (two and one output instances) receiving
three shutdown calls from mixed callers — every driver is shut down exactly
once. -/
theorem c3_shutdown_exactly_once_witness :
    (applyShutdownCalls [false, true, false]
      (initBox [2, 1])).inputShutdownCalls = 1 ∧
    ∀ l ∈ (applyShutdownCalls [false, true, false]
      (initBox [2, 1])).outputShutdownCalls, ∀ c ∈ l, c = 1 :=
  c3_shutdown_exactly_once [2, 1] [false, true, false] (by decide)

/-- C4 counterexample: for a one-worker box with one output instance, the
actions of `shutdown` are exactly the input-driver shutdown, immediately the
output-driver shutdown, then the channel send — there is no step between them
waiting for the workers to observe the stop flag or the drained input, so the
claimed three-step order (stop input; wait for workers; shut outputs down)
does not hold. -/
theorem c4_counterexample :
    shutdownTrace [[0]] =
      [SAction.inputShutdown, SAction.outputShutdown 0 0, SAction.chanSend] ∧
    SAction.waitWorkers ∉ shutdownTrace [[0]] := by
  decide

/-- C4 amended: during a box shutdown the input driver is told to stop
producing first, and every output driver instance's shutdown comes after it
(followed only by the channel send); but the box performs no step that waits
for the workers between the two — `shutdown` proceeds from the input
driver's shutdown directly to the output drivers' shutdowns. -/
theorem c4_shutdown_order (ows : List (List Nat)) :
    ∃ mid, shutdownTrace ows =
        SAction.inputShutdown :: (mid ++ [SAction.chanSend]) ∧
      (∀ a ∈ mid, ∃ w o, a = SAction.outputShutdown w o) ∧
      SAction.waitWorkers ∉ shutdownTrace ows := by
  refine ⟨ows.enum.flatMap fun wi => wi.2.map fun o =>
    SAction.outputShutdown wi.1 o, ?_, ?_, ?_⟩
  · simp [shutdownTrace]
  · intro a ha
    simp only [List.mem_flatMap, List.mem_map] at ha
    obtain ⟨wi, _, o, _, hao⟩ := ha
    exact ⟨wi.1, o, hao.symm⟩
  · intro hmem
    simp only [shutdownTrace, List.cons_append, List.nil_append,
      List.mem_cons, List.mem_append, List.mem_flatMap, List.mem_map] at hmem
    rcases hmem with h | h | h
    · exact absurd h (by simp)
    · rcases h with ⟨wi, _, o, _, hao⟩
      exact absurd hao (by simp)
    · rcases h with h | h
      · exact absurd h (by simp)
      · simp at h

/-- C4 witness for the amended order: a concrete two-worker box. -/
theorem c4_shutdown_order_witness :
    SAction.waitWorkers ∉ shutdownTrace [[0, 1], [2, 3]] := by
  obtain ⟨mid, _, _, h3⟩ := c4_shutdown_order [[0, 1], [2, 3]]
  exact h3

theorem runningBoxes_stopInputs (l : List RBox) :
    runningBoxes (stopInputs l) = [] := by
  induction l with
  | nil => rfl
  | cons b bs ih => simpa [stopInputs, runningBoxes, stopBox] using ih

/-- C1 counterexample: one box (id 0) is running; the reload trigger parses a
configuration whose single input entry names a driver type the registry does
not know, so `buildPluginLink` fails. After `reload`, no box is running —
`reload` called `inputs.stop()` BEFORE building the new plan — so the set of
running input boxes did change, contradicting the claim that a construction
failure leaves it unchanged. -/
theorem c1_counterexample :
    runningBoxes (reloadGo (Except.ok ["kafka"]) (fun _ => none)
        [⟨0, true⟩]) ≠ runningBoxes [(⟨0, true⟩ : RBox)] := by
  decide

/-- C1 amended: on a configuration parse failure, `reload` logs and leaves
the running boxes untouched. On a driver-construction failure, however, the
old boxes have already been stopped (the code stops them before building the
new plan): they remain the current set, but stopped — after such a reload no
input box is running. -/
theorem c1_reload_failure (registry : String → Option Nat)
    (inputs : List RBox) :
    (∀ msg, reloadGo (Except.error msg) registry inputs = inputs) ∧
    (∀ cfg msg, buildPluginLink registry cfg = Except.error msg →
      reloadGo (Except.ok cfg) registry inputs = stopInputs inputs ∧
      runningBoxes (reloadGo (Except.ok cfg) registry inputs) = []) := by
  refine ⟨fun msg => rfl, fun cfg msg h => ?_⟩
  have hre : reloadGo (Except.ok cfg) registry inputs = stopInputs inputs := by
    simp [reloadGo, h]
  exact ⟨hre, by rw [hre, runningBoxes_stopInputs]⟩

/-- C1 witness: the amended theorem at a concrete parse failure and at a
concrete construction failure (empty registry, one running box). -/
theorem c1_reload_failure_witness :
    reloadGo (Except.error "could not parse config") (fun _ => none)
      [⟨0, true⟩] = [(⟨0, true⟩ : RBox)] ∧
    runningBoxes (reloadGo (Except.ok ["kafka"]) (fun _ => none)
      [⟨0, true⟩]) = [] :=
  ⟨(c1_reload_failure (fun _ => none) [⟨0, true⟩]).1 "could not parse config",
   ((c1_reload_failure (fun _ => none) [⟨0, true⟩]).2 ["kafka"]
     "invalid input plugin" rfl).2⟩

/-- C8: at startup a configuration parse failure terminates the process with
a non-zero exit status before any input box is started; a plugin-link
construction failure does the same; when parsing and construction succeed the
process runs and terminates normally with exit status 0. -/
theorem c8_startup_fatal (registry : String → Option Nat) :
    (∀ msg, (mainGo (Except.error msg) registry).exitCode ≠ 0 ∧
      (mainGo (Except.error msg) registry).started = []) ∧
    (∀ cfg msg, buildPluginLink registry cfg = Except.error msg →
      (mainGo (Except.ok cfg) registry).exitCode ≠ 0 ∧
      (mainGo (Except.ok cfg) registry).started = []) ∧
    (∀ cfg ids, buildPluginLink registry cfg = Except.ok ids →
      (mainGo (Except.ok cfg) registry).exitCode = 0 ∧
      (mainGo (Except.ok cfg) registry).started =
        ids.map fun i => ⟨i, true⟩) := by
  refine ⟨fun msg => ⟨by simp [mainGo], rfl⟩, fun cfg msg h => ?_, ?_⟩
  · exact ⟨by simp [mainGo, h], by simp [mainGo, h]⟩
  · intro cfg ids h
    exact ⟨by simp [mainGo, h], by simp [mainGo, h]⟩

/-- C8 witness: a registry knowing only the driver type "stdin" (id 7) — the
theorem at a concrete parse failure, a concrete construction failure, and a
concrete successful startup. -/
theorem c8_startup_fatal_witness :
    (mainGo (Except.error "could not parse config")
      (fun t => if t = "stdin" then some 7 else none)).exitCode ≠ 0 ∧
    (mainGo (Except.ok ["nope"])
      (fun t => if t = "stdin" then some 7 else none)).started = [] ∧
    (mainGo (Except.ok ["stdin"])
      (fun t => if t = "stdin" then some 7 else none)).exitCode = 0 :=
  ⟨((c8_startup_fatal (fun t => if t = "stdin" then some 7 else none)).1
      "could not parse config").1,
   ((c8_startup_fatal (fun t => if t = "stdin" then some 7 else none)).2.1
      ["nope"] "invalid input plugin" rfl).2,
   ((c8_startup_fatal (fun t => if t = "stdin" then some 7 else none)).2.2
      ["stdin"] [7] rfl).1⟩

theorem beatAllAlloc_length (nf no n ctr : Nat) :
    ((beatAllAlloc nf no n ctr).1).length = n := by
  induction n generalizing ctr with
  | zero => rfl
  | succ n ih => simp [beatAllAlloc, ih]

theorem beatAllAlloc_eq (nf no n ctr : Nat) :
    (beatAllAlloc nf no n ctr).1 =
      (List.range n).map fun k =>
        (beatWorkerAlloc nf no (ctr + k * (no + nf))).1 := by
  induction n generalizing ctr with
  | zero => rfl
  | succ n ih =>
    rw [List.range_succ_eq_map]
    simp only [beatAllAlloc, List.map_cons, List.map_map]
    refine congrArg₂ List.cons (by simp) ?_
    rw [ih]
    refine congrArg (List.map · (List.range n)) (funext fun k => ?_)
    have harg : (beatWorkerAlloc nf no ctr).2 + k * (no + nf) =
        ctr + (k + 1) * (no + nf) := by
      show ctr + no + nf + k * (no + nf) = ctr + (k + 1) * (no + nf)
      ring
    simp [Function.comp, harg]

theorem beatWorker_ids_bounds (nf no ctr x : Nat)
    (hx : x ∈ ((beatWorkerAlloc nf no ctr).1).allIds) :
    ctr ≤ x ∧ x < ctr + (no + nf) := by
  simp only [beatWorkerAlloc, buildOutputsAlloc, buildFilterBoxesAlloc,
    WorkerLink.allIds, List.mem_append, List.mem_range'_1] at hx
  omega

/-- C6: `Beat(N)` materializes exactly `N` worker links, and the driver
instances (output boxes and filter boxes) of distinct workers are disjoint —
each worker's link is built by its own `BuildOutputs` and `BuildFilterBoxes`
calls, with no structural sharing across workers. -/
theorem c6_workers_independent (nf no n i j : Nat) (hij : i ≠ j)
    (li lj : WorkerLink)
    (hi : (beatLinks nf no n)[i]? = some li)
    (hj : (beatLinks nf no n)[j]? = some lj) :
    (beatLinks nf no n).length = n ∧
    ∀ x ∈ li.allIds, x ∉ lj.allIds := by
  have hlen : (beatLinks nf no n).length = n := beatAllAlloc_length nf no n 0
  have he : beatLinks nf no n = (List.range n).map fun k =>
      (beatWorkerAlloc nf no (0 + k * (no + nf))).1 :=
    beatAllAlloc_eq nf no n 0
  have hiln : i < n := by
    by_contra hlt
    rw [List.getElem?_eq_none (by omega)] at hi
    cases hi
  have hjln : j < n := by
    by_contra hlt
    rw [List.getElem?_eq_none (by omega)] at hj
    cases hj
  rw [he, List.getElem?_map, List.getElem?_range hiln] at hi
  rw [he, List.getElem?_map, List.getElem?_range hjln] at hj
  simp only [Option.map_some', Option.some_inj] at hi hj
  refine ⟨hlen, fun x hx hx2 => ?_⟩
  rw [← hi] at hx
  rw [← hj] at hx2
  have hbi := beatWorker_ids_bounds nf no (0 + i * (no + nf)) x hx
  have hbj := beatWorker_ids_bounds nf no (0 + j * (no + nf)) x hx2
  rcases Nat.lt_or_ge i j with hlt | hge
  · have hmul : (i + 1) * (no + nf) ≤ j * (no + nf) :=
      Nat.mul_le_mul_right _ hlt
    have hsu : (i + 1) * (no + nf) = i * (no + nf) + (no + nf) := by ring
    omega
  · have hlt : j < i := Nat.lt_of_le_of_ne hge fun h => hij h.symm
    have hmul : (j + 1) * (no + nf) ≤ i * (no + nf) :=
      Nat.mul_le_mul_right _ hlt
    have hsu : (j + 1) * (no + nf) = j * (no + nf) + (no + nf) := by ring
    omega

/-- C6 witness: two workers, one filter and one output each — the worker
links are two, and instance 0 (worker 0's output box) does not occur among
worker 1's instances. -/
theorem c6_workers_independent_witness :
    (beatLinks 1 1 2).length = 2 ∧
    (0 : Nat) ∉ (WorkerLink.mk [2] [3]).allIds := by
  have h := c6_workers_independent 1 1 2 0 1 (by decide)
    ⟨[0], [1]⟩ ⟨[2], [3]⟩ (by rfl) (by rfl)
  exact ⟨h.1, h.2 0 (by decide)⟩

theorem chanInvariant_reachable (s : ChanState) (h : ChanReachable s) :
    chanInvariant s := by
  induction h with
  | init => exact ⟨Nat.le_refl 0, fun h2 => by cases h2⟩
  | step hr hs ih =>
    obtain ⟨ih1, ih2⟩ := ih
    cases hs with
    | send h1 =>
      refine ⟨?_, fun h2 => ?_⟩ <;> dsimp only at * <;> omega
    | recv h1 h2 =>
      refine ⟨?_, fun h3 => ?_⟩ <;> dsimp only at * <;> omega

/-- C10: `Beat` blocks until a box shutdown has been triggered — in every
reachable state of the `shutdownChan` protocol, if `Beat` has passed its
`<-box.shutdownChan` receive and returned, then at least one invocation of
`box.shutdown()` has completed its send. The send in `shutdown` is the only
write to the channel in the program (the only `ChanStep` that grows the
buffer), so `Beat` never returns while the box is still in its `Running`
state (no `shutdown` invoked). -/
theorem c10_beat_blocks (s : ChanState) (h : ChanReachable s)
    (h2 : s.beatReturned = true) : 1 ≤ s.shutdownCalls :=
  (chanInvariant_reachable s h).2 h2

/-- C10 witness: the state after one `shutdown` send and the matching `Beat`
receive is reachable, and in it `Beat` has returned with one shutdown call
recorded. -/
theorem c10_beat_blocks_witness :
    1 ≤ (ChanState.mk 1 0 true).shutdownCalls :=
  c10_beat_blocks ⟨1, 0, true⟩
    (ChanReachable.step
      (ChanReachable.step ChanReachable.init (ChanStep.send chanInit rfl))
      (ChanStep.recv ⟨1, 1, false⟩ (by decide) rfl))
    rfl
